import Mathlib

/-!
Verification of the `logger` package (a leveled, structured-logging facade
over the zap engine) against its specification.

The embedding translates the Go sources:
* `logger.go` — `Config`, `Level`, `Fields`, the level constants;
* the `Zap` implementation file — `NewZap`, the five logging methods,
  `shouldLog`, `mapToZapFields` (variant without byte/time/duration cases);
* the `ZapLogger` implementation file — `NewZapLogger`, `GetLogLevel`,
  the five logging methods, `shouldLog`, `mapToZapFields` (variant with
  byte/time/duration cases).

Go `int` values are modelled as `Int`.  Go maps (`Fields`) are modelled as
association lists; Go map iteration order is unspecified, so the list fixes
one arbitrary iteration order and key uniqueness is an explicit hypothesis
where a claim needs it.  The external zap engine is not part of this
repository; its field constructors (`zap.String`, `zap.Int`, ..., `zap.Any`)
and its core are modelled from their documented behaviour and from the
spec's collaborator contract (the engine applies its own severity gate and
writes one structured record per accepted call before returning).
Observable effects (engine emissions, exit-callback invocations) are
recorded in an event trace that the logging operations thread through.
-/

namespace Logger

/-- Go `type Level int` (`logger.go`). -/
abbrev Level := Int

/-- Go `type LogLevel int` (the ZapLogger variant's declaration file). -/
abbrev LogLevel := Int

/-- `DebugLevel Level = iota` — the zero value of the enumeration. -/
def DebugLevel : Level := 0

/-- `InfoLevel` = 1. -/
def InfoLevel : Level := 1

/-- `WarnLevel` = 2. -/
def WarnLevel : Level := 2

/-- `ErrorLevel` = 3. -/
def ErrorLevel : Level := 3

/-- `FatalLevel` = 4. -/
def FatalLevel : Level := 4

/-- Dynamically-typed field values (Go `any`).  One constructor per runtime
type the two `mapToZapFields` variants dispatch on, plus `other` for every
remaining runtime type (carrying an opaque description of that value).
`float64` carries the uninterpreted IEEE-754 bit pattern; `time` and
`duration` carry nanosecond counts; `bytes` carries the byte list. -/
inductive Value
  | str (s : String)
  | int (n : Int)
  | int64 (n : Int)
  | float64 (bits : Nat)
  | bool (b : Bool)
  | bytes (b : List Nat)
  | time (ns : Int)
  | duration (ns : Int)
  | other (repr : String)
deriving DecidableEq

/-- A zap typed field (`zap.Field`), one constructor per field kind the
adapter can produce.  `int64` is the common 64-bit integer representation
(`zap.Int` widens Go `int` into it). -/
inductive ZapField
  | string (key : String) (val : String)
  | int64 (key : String) (val : Int)
  | float64 (key : String) (bits : Nat)
  | bool (key : String) (val : Bool)
  | binary (key : String) (val : List Nat)
  | time (key : String) (ns : Int)
  | duration (key : String) (ns : Int)
  | any (key : String) (val : Value)
deriving DecidableEq

/-- The key of a zap field. -/
def ZapField.key : ZapField → String
  | .string k _ => k
  | .int64 k _ => k
  | .float64 k _ => k
  | .bool k _ => k
  | .binary k _ => k
  | .time k _ => k
  | .duration k _ => k
  | .any k _ => k

/-- `zap.String` (external zap library). -/
def zapString (k : String) (s : String) : ZapField := .string k s

/-- `zap.Int64` (external zap library). -/
def zapInt64 (k : String) (n : Int) : ZapField := .int64 k n

/-- `zap.Int` (external zap library): widens Go `int` to int64. -/
def zapInt (k : String) (n : Int) : ZapField := zapInt64 k n

/-- `zap.Float64` (external zap library). -/
def zapFloat64 (k : String) (bits : Nat) : ZapField := .float64 k bits

/-- `zap.Bool` (external zap library). -/
def zapBool (k : String) (b : Bool) : ZapField := .bool k b

/-- `zap.Binary` (external zap library). -/
def zapBinary (k : String) (b : List Nat) : ZapField := .binary k b

/-- `zap.Time` (external zap library). -/
def zapTime (k : String) (ns : Int) : ZapField := .time k ns

/-- `zap.Duration` (external zap library). -/
def zapDuration (k : String) (ns : Int) : ZapField := .duration k ns

/-- `zap.Any` (external zap library): dispatches on the value's concrete
runtime type, producing the same typed field the dedicated constructor
would, and falls back to an opaque reflection-based field for every other
type. -/
def zapAny (k : String) (v : Value) : ZapField :=
  match v with
  | .str s => zapString k s
  | .int n => zapInt k n
  | .int64 n => zapInt64 k n
  | .float64 bits => zapFloat64 k bits
  | .bool b => zapBool k b
  | .bytes b => zapBinary k b
  | .time ns => zapTime k ns
  | .duration ns => zapDuration k ns
  | .other r => .any k (.other r)

/-- Go `type Fields map[string]any`, as an association list in one
(arbitrary) iteration order. -/
abbrev Fields := List (String × Value)

/-- `mapToZapFields`, the `Zap` variant: type switch over
string / int / int64 / float64 / bool, everything else (including byte
slices, times and durations) through the `default:` branch `zap.Any(k, v)`. -/
def mapToZapFieldsZ : Fields → List ZapField
  | [] => []
  | (k, v) :: rest =>
    (match v with
     | .str s => zapString k s
     | .int n => zapInt k n
     | .int64 n => zapInt64 k n
     | .float64 bits => zapFloat64 k bits
     | .bool b => zapBool k b
     | v => zapAny k v) :: mapToZapFieldsZ rest

/-- `mapToZapFields`, the `ZapLogger` variant: type switch over
string / int / int64 / float64 / bool / []byte / time.Time / time.Duration,
everything else through the `default:` branch `zap.Any(k, v)`. -/
def mapToZapFieldsZL : Fields → List ZapField
  | [] => []
  | (k, v) :: rest =>
    (match v with
     | .str s => zapString k s
     | .int n => zapInt k n
     | .int64 n => zapInt64 k n
     | .float64 bits => zapFloat64 k bits
     | .bool b => zapBool k b
     | .bytes b => zapBinary k b
     | .time ns => zapTime k ns
     | .duration ns => zapDuration k ns
     | v => zapAny k v) :: mapToZapFieldsZL rest

/-- The spec's per-entry conversion table, written from the spec's words
(section 4.2): text → string field, 32-bit integer → integer field widened
to the common 64-bit representation, 64-bit integer → integer field,
floating point → float field, boolean → boolean field, byte sequence →
binary field, absolute timestamp → time field, duration → duration field,
anything else → opaque/generic field holding the original value.  Declared
only to be compared against the source-derived adapters. -/
def specTypedField (k : String) (v : Value) : ZapField :=
  match v with
  | .str s => .string k s
  | .int n => .int64 k n
  | .int64 n => .int64 k n
  | .float64 bits => .float64 k bits
  | .bool b => .bool k b
  | .bytes b => .binary k b
  | .time ns => .time k ns
  | .duration ns => .duration k ns
  | .other r => .any k (.other r)

/-- An exit-callback value (Go `func(int)` stored in the configuration).
Function values are modelled as data so they can be compared: `nilFn` is
the Go `nil` function value, `osExit` the real process-termination
primitive `os.Exit`, `noop` the no-op `func(int) {}`, and `hook` an
injected test hook identified opaquely. -/
inductive ExitFunc
  | nilFn
  | osExit
  | noop
  | hook (id : Nat)
deriving DecidableEq

/-- Observable effects of the logging operations: an engine emission of one
structured record (severity, message, converted fields), or an invocation
of an exit callback with a status code.  Invoking `osExit` terminates the
process; the trace records the invocation itself. -/
inductive Event
  | emit (level : Level) (msg : String) (fields : List ZapField)
  | exitCall (fn : ExitFunc) (code : Int)
deriving DecidableEq

/-- The underlying structured-log engine handle (`*zap.Logger` built over a
`zapcore.Core`).  Modelled from the spec's collaborator contract: it holds
its own minimum severity (the atomic level set at construction) and a sink
handle; sinks are opaque handles (`Nat`). -/
structure ZapCore where
  level : Level
  sink : Nat
deriving DecidableEq

/-- Modelled from the spec: the engine's `emit` applies its own
minimum-severity gate as a second line of defense and, when the severity
passes, writes exactly one structured record containing the message and the
typed fields to its sink before returning. -/
def ZapCore.emit (c : ZapCore) (level : Level) (msg : String)
    (fields : List ZapField) (tr : List Event) : List Event :=
  if c.level ≤ level then tr ++ [Event.emit level msg fields] else tr

/-- Invoking an exit callback with a status code records the invocation. -/
def callExit (fn : ExitFunc) (code : Int) (tr : List Event) : List Event :=
  tr ++ [Event.exitCall fn code]

/-- Go `Config` (`logger.go`): level, output sink (an `io.Writer`, modelled
as an opaque handle), nilable exit function, and an open extension map. -/
structure Config where
  Level : Level
  Output : Nat
  ExitFunc : ExitFunc
  MoreConfig : List (String × Value)
deriving DecidableEq

/-- The `Zap` logger: the engine handle and the configuration captured at
construction. -/
structure Zap where
  logger : ZapCore
  Config : Config
deriving DecidableEq

/-- The `switch config.Level` in `NewZap`/`NewZapLogger` that sets the
engine's atomic level: each of the five recognized levels maps to the
matching zap level, and the `default:` branch maps everything else to
`zap.InfoLevel`. -/
def zapEngineLevel (l : Level) : Level :=
  if l = DebugLevel then DebugLevel
  else if l = InfoLevel then InfoLevel
  else if l = WarnLevel then WarnLevel
  else if l = ErrorLevel then ErrorLevel
  else if l = FatalLevel then FatalLevel
  else InfoLevel

/-- `NewZap`: builds the engine core at the coerced atomic level over the
configured output, defaults a nil `ExitFunc` to `os.Exit`, and stores the
(possibly patched) configuration. -/
def NewZap (config : Config) : Zap :=
  let core : ZapCore := { level := zapEngineLevel config.Level, sink := config.Output }
  let config :=
    if config.ExitFunc = ExitFunc.nilFn then
      { config with ExitFunc := ExitFunc.osExit }
    else config
  { logger := core, Config := config }

/-- `Zap.shouldLog`: `level >= z.Config.Level`. -/
def Zap.shouldLog (z : Zap) (level : Level) : Bool :=
  decide (z.Config.Level ≤ level)

/-- `Zap.Debug`: gate on `DebugLevel`, then convert the fields and forward
to the engine.  Returns the receiver (unchanged by the source) and the
extended trace. -/
def Zap.Debug (z : Zap) (msg : String) (fields : Fields)
    (tr : List Event) : Zap × List Event :=
  if z.shouldLog DebugLevel then
    (z, z.logger.emit DebugLevel msg (mapToZapFieldsZ fields) tr)
  else (z, tr)

/-- `Zap.Info`. -/
def Zap.Info (z : Zap) (msg : String) (fields : Fields)
    (tr : List Event) : Zap × List Event :=
  if z.shouldLog InfoLevel then
    (z, z.logger.emit InfoLevel msg (mapToZapFieldsZ fields) tr)
  else (z, tr)

/-- `Zap.Warn`. -/
def Zap.Warn (z : Zap) (msg : String) (fields : Fields)
    (tr : List Event) : Zap × List Event :=
  if z.shouldLog WarnLevel then
    (z, z.logger.emit WarnLevel msg (mapToZapFieldsZ fields) tr)
  else (z, tr)

/-- `Zap.Error`. -/
def Zap.Error (z : Zap) (msg : String) (fields : Fields)
    (tr : List Event) : Zap × List Event :=
  if z.shouldLog ErrorLevel then
    (z, z.logger.emit ErrorLevel msg (mapToZapFieldsZ fields) tr)
  else (z, tr)

/-- `Zap.Fatal`: gate on `FatalLevel`; when it passes, the engine call comes
first and the configured exit callback is invoked with status 1 after it
returns. -/
def Zap.Fatal (z : Zap) (msg : String) (fields : Fields)
    (tr : List Event) : Zap × List Event :=
  if z.shouldLog FatalLevel then
    (z, callExit z.Config.ExitFunc 1
          (z.logger.emit FatalLevel msg (mapToZapFieldsZ fields) tr))
  else (z, tr)

/-- `LogLevel.GetLogLevel`: the severity-to-label switch, empty string on
the `default:` branch. -/
def LogLevel.GetLogLevel (l : LogLevel) : String :=
  if l = DebugLevel then "debug"
  else if l = InfoLevel then "info"
  else if l = WarnLevel then "warn"
  else if l = ErrorLevel then "error"
  else if l = FatalLevel then "fatal"
  else ""

/-- The `ZapLogger` variant: engine handle, configured level, exit
function. -/
structure ZapLogger where
  logger : ZapCore
  LogLevel : LogLevel
  exitFunc : ExitFunc
deriving DecidableEq

/-- The stdout sink the `ZapLogger` variant always writes to
(`OutputPaths: []string{"stdout"}`), as an opaque handle. -/
def stdoutSink : Nat := 0

/-- `NewZapLogger`: coerces the level for the engine, builds the engine
over stdout (the fixed, valid configuration it uses cannot fail to build),
and always installs the no-op `func(int) {}` as the exit function. -/
def NewZapLogger (level : LogLevel) : ZapLogger :=
  { logger := { level := zapEngineLevel level, sink := stdoutSink }
    LogLevel := level
    exitFunc := ExitFunc.noop }

/-- `ZapLogger.shouldLog`: `level >= z.LogLevel`. -/
def ZapLogger.shouldLog (z : ZapLogger) (level : Level) : Bool :=
  decide (z.LogLevel ≤ level)

/-- `ZapLogger.Debug`. -/
def ZapLogger.Debug (z : ZapLogger) (msg : String) (fields : Fields)
    (tr : List Event) : ZapLogger × List Event :=
  if z.shouldLog DebugLevel then
    (z, z.logger.emit DebugLevel msg (mapToZapFieldsZL fields) tr)
  else (z, tr)

/-- `ZapLogger.Info`. -/
def ZapLogger.Info (z : ZapLogger) (msg : String) (fields : Fields)
    (tr : List Event) : ZapLogger × List Event :=
  if z.shouldLog InfoLevel then
    (z, z.logger.emit InfoLevel msg (mapToZapFieldsZL fields) tr)
  else (z, tr)

/-- `ZapLogger.Warn`. -/
def ZapLogger.Warn (z : ZapLogger) (msg : String) (fields : Fields)
    (tr : List Event) : ZapLogger × List Event :=
  if z.shouldLog WarnLevel then
    (z, z.logger.emit WarnLevel msg (mapToZapFieldsZL fields) tr)
  else (z, tr)

/-- `ZapLogger.Error`. -/
def ZapLogger.Error (z : ZapLogger) (msg : String) (fields : Fields)
    (tr : List Event) : ZapLogger × List Event :=
  if z.shouldLog ErrorLevel then
    (z, z.logger.emit ErrorLevel msg (mapToZapFieldsZL fields) tr)
  else (z, tr)

/-- `ZapLogger.Fatal`: engine call first, then `z.exitFunc(1)`. -/
def ZapLogger.Fatal (z : ZapLogger) (msg : String) (fields : Fields)
    (tr : List Event) : ZapLogger × List Event :=
  if z.shouldLog FatalLevel then
    (z, callExit z.exitFunc 1
          (z.logger.emit FatalLevel msg (mapToZapFieldsZL fields) tr))
  else (z, tr)

/-- `GetLevel`, the level accessor of the polymorphic logging interface. -/
def ZapLogger.GetLevel (z : ZapLogger) : Level :=
  z.LogLevel

/-- One call to one of the five logging operations. -/
inductive Call
  | debug (msg : String) (fields : Fields)
  | info (msg : String) (fields : Fields)
  | warn (msg : String) (fields : Fields)
  | error (msg : String) (fields : Fields)
  | fatal (msg : String) (fields : Fields)

/-- Run one call against a `Zap` logger. -/
def runCall (z : Zap) (c : Call) (tr : List Event) : Zap × List Event :=
  match c with
  | .debug msg f => z.Debug msg f tr
  | .info msg f => z.Info msg f tr
  | .warn msg f => z.Warn msg f tr
  | .error msg f => z.Error msg f tr
  | .fatal msg f => z.Fatal msg f tr

/-- Run a sequence of calls against a `Zap` logger, threading the logger
and the trace. -/
def runCalls (z : Zap) (cs : List Call) (tr : List Event) : Zap × List Event :=
  match cs with
  | [] => (z, tr)
  | c :: rest =>
    let p := runCall z c tr
    runCalls p.1 rest p.2

/-! ### Helper lemmas -/

theorem mapToZapFieldsZ_eq_spec (F : Fields) :
    mapToZapFieldsZ F = F.map (fun kv => specTypedField kv.1 kv.2) := by
  induction F with
  | nil => rfl
  | cons hd tl ih =>
    obtain ⟨k, v⟩ := hd
    cases v <;>
      simp [mapToZapFieldsZ, specTypedField, zapAny, zapString, zapInt,
        zapInt64, zapFloat64, zapBool, zapBinary, zapTime, zapDuration, ih]

theorem mapToZapFieldsZL_eq_spec (F : Fields) :
    mapToZapFieldsZL F = F.map (fun kv => specTypedField kv.1 kv.2) := by
  induction F with
  | nil => rfl
  | cons hd tl ih =>
    obtain ⟨k, v⟩ := hd
    cases v <;>
      simp [mapToZapFieldsZL, specTypedField, zapAny, zapString, zapInt,
        zapInt64, zapFloat64, zapBool, zapBinary, zapTime, zapDuration, ih]

theorem specTypedField_key (k : String) (v : Value) :
    (specTypedField k v).key = k := by
  cases v <;> rfl

theorem NewZap_Config_Level (config : Config) :
    (NewZap config).Config.Level = config.Level := by
  simp only [NewZap]
  split <;> rfl

theorem NewZap_logger (config : Config) :
    (NewZap config).logger
      = { level := zapEngineLevel config.Level, sink := config.Output } := by
  simp only [NewZap]

theorem NewZap_ExitFunc (config : Config) :
    (NewZap config).Config.ExitFunc
      = if config.ExitFunc = ExitFunc.nilFn then ExitFunc.osExit
        else config.ExitFunc := by
  simp only [NewZap]
  split <;> simp_all

theorem zapEngineLevel_le (l : Level) : zapEngineLevel l ≤ FatalLevel := by
  unfold zapEngineLevel
  split_ifs <;> decide

/-! ### Claims -/

/-- C1: for every configured minimum severity C and every candidate
severity S (integers ordered Debug < Info < Warn < Error < Fatal, but also
any out-of-range value), the level policy `shouldLog` of both logger
variants returns true iff S ≥ C; it is a pure, total Boolean function with
no side effects and no error conditions. -/
theorem shouldLog_iff_ge :
    (∀ (z : Zap) (s : Level), z.shouldLog s = true ↔ z.Config.Level ≤ s)
    ∧ (∀ (z : ZapLogger) (s : Level), z.shouldLog s = true ↔ z.LogLevel ≤ s) := by
  constructor <;> intro z s <;> simp [Zap.shouldLog, ZapLogger.shouldLog]

/-- C2: both variants of the field adapter `mapToZapFields` dispatch on
each entry's concrete runtime type and produce exactly the typed field the
spec's conversion table (`specTypedField`) prescribes: string → string
field, int → integer field widened to int64, int64 → integer field,
float64 → float field, bool → boolean field, byte sequence → binary field,
timestamp → time field, duration → duration field, any other type →
opaque/generic field holding the original value.  Both adapters are total
functions, so no conversion ever fails. -/
theorem mapToZapFields_typed_dispatch :
    ∀ F : Fields,
      mapToZapFieldsZ F = F.map (fun kv => specTypedField kv.1 kv.2)
      ∧ mapToZapFieldsZL F = F.map (fun kv => specTypedField kv.1 kv.2) :=
  fun F => ⟨mapToZapFieldsZ_eq_spec F, mapToZapFieldsZL_eq_spec F⟩

/-- C3: both variants of the field adapter produce exactly one typed field
per input entry — the output length equals the input length — and, when the
input keys are unique (as they are in a Go map), every key of the input
appears exactly once among the output fields' keys. -/
theorem mapToZapFields_cardinality :
    ∀ F : Fields,
      (mapToZapFieldsZ F).length = F.length
      ∧ (mapToZapFieldsZL F).length = F.length
      ∧ ((F.map Prod.fst).Nodup →
          ∀ k ∈ F.map Prod.fst,
            ((mapToZapFieldsZ F).map ZapField.key).count k = 1
            ∧ ((mapToZapFieldsZL F).map ZapField.key).count k = 1) := by
  intro F
  have hkeysZ : (mapToZapFieldsZ F).map ZapField.key = F.map Prod.fst := by
    rw [mapToZapFieldsZ_eq_spec, List.map_map]
    exact List.map_congr_left fun kv _ => specTypedField_key kv.1 kv.2
  have hkeysZL : (mapToZapFieldsZL F).map ZapField.key = F.map Prod.fst := by
    rw [mapToZapFieldsZL_eq_spec, List.map_map]
    exact List.map_congr_left fun kv _ => specTypedField_key kv.1 kv.2
  refine ⟨?_, ?_, ?_⟩
  · rw [mapToZapFieldsZ_eq_spec, List.length_map]
  · rw [mapToZapFieldsZL_eq_spec, List.length_map]
  · intro hnodup k hk
    rw [hkeysZ, hkeysZL]
    exact ⟨List.count_eq_one_of_mem hnodup hk, List.count_eq_one_of_mem hnodup hk⟩

/-- Witness for C3 at the concrete Field Set
`{"a": "x", "b": 3}` (keys unique): both adapters output two fields and
each key appears exactly once. -/
theorem mapToZapFields_cardinality_witness :
    (([("a", Value.str "x"), ("b", Value.int 3)].map Prod.fst).Nodup
      ∧ "a" ∈ [("a", Value.str "x"), ("b", Value.int 3)].map Prod.fst)
    ∧ (mapToZapFieldsZ [("a", Value.str "x"), ("b", Value.int 3)]).length = 2
    ∧ ((mapToZapFieldsZ [("a", Value.str "x"), ("b", Value.int 3)]).map
        ZapField.key).count "a" = 1 := by
  refine ⟨⟨by decide, by decide⟩, ?_, ?_⟩
  · exact (mapToZapFields_cardinality [("a", Value.str "x"), ("b", Value.int 3)]).1
  · exact ((mapToZapFields_cardinality [("a", Value.str "x"), ("b", Value.int 3)]).2.2
      (by decide) "a" (by decide)).1

/-- C4: whenever the configured minimum admits Fatal, `Fatal` first lets
the engine emit one record carrying the message and converted fields, and
only after that invocation returns does it invoke the configured exit
callback exactly once with status code 1 — the trace extends by exactly the
emission followed by the exit-callback invocation, in that order.  Holds
for both variants (for `ZapLogger` the stored callback is its constructed
one). -/
theorem fatal_emits_then_exits :
    ∀ (config : Config) (level : Level) (msg : String) (f : Fields)
      (tr : List Event),
      config.Level ≤ FatalLevel → level ≤ FatalLevel →
      (NewZap config).Fatal msg f tr
          = (NewZap config,
             tr ++ [Event.emit FatalLevel msg (mapToZapFieldsZ f),
                    Event.exitCall (NewZap config).Config.ExitFunc 1])
      ∧ (NewZapLogger level).Fatal msg f tr
          = (NewZapLogger level,
             tr ++ [Event.emit FatalLevel msg (mapToZapFieldsZL f),
                    Event.exitCall ExitFunc.noop 1]) := by
  intro config level msg f tr hc hl
  constructor
  · have hgate : (NewZap config).shouldLog FatalLevel = true := by
      simp only [Zap.shouldLog, NewZap_Config_Level, decide_eq_true_eq]
      exact hc
    have hengine : (NewZap config).logger.level ≤ FatalLevel := by
      rw [NewZap_logger]
      exact zapEngineLevel_le config.Level
    simp [Zap.Fatal, ZapCore.emit, callExit, hgate, hengine]
  · have hgate : (NewZapLogger level).shouldLog FatalLevel = true := by
      simp only [ZapLogger.shouldLog, NewZapLogger, decide_eq_true_eq]
      exact hl
    have hengine : (NewZapLogger level).logger.level ≤ FatalLevel :=
      zapEngineLevel_le level
    have hexit : (NewZapLogger level).exitFunc = ExitFunc.noop := rfl
    simp [ZapLogger.Fatal, ZapCore.emit, callExit, hgate, hengine, hexit]

/-- Witness for C4: under configured minimum Fatal with an injected no-op
exit callback, `Fatal "bye" {}` writes one record containing "bye" and then
invokes the injected callback exactly once with status 1; likewise for the
`ZapLogger` variant. -/
theorem fatal_emits_then_exits_witness :
    ((Config.mk FatalLevel 0 ExitFunc.noop []).Level ≤ FatalLevel
      ∧ FatalLevel ≤ FatalLevel)
    ∧ (NewZap (Config.mk FatalLevel 0 ExitFunc.noop [])).Fatal "bye" [] []
        = (NewZap (Config.mk FatalLevel 0 ExitFunc.noop []),
           [Event.emit FatalLevel "bye" [], Event.exitCall ExitFunc.noop 1])
    ∧ (NewZapLogger FatalLevel).Fatal "bye" [] []
        = (NewZapLogger FatalLevel,
           [Event.emit FatalLevel "bye" [], Event.exitCall ExitFunc.noop 1]) := by
  refine ⟨⟨by decide, by decide⟩, ?_, ?_⟩
  · exact (fatal_emits_then_exits (Config.mk FatalLevel 0 ExitFunc.noop [])
      FatalLevel "bye" [] [] (by decide) (by decide)).1
  · exact (fatal_emits_then_exits (Config.mk FatalLevel 0 ExitFunc.noop [])
      FatalLevel "bye" [] [] (by decide) (by decide)).2

/-- C5: for every logging operation of both variants, every message and
every Field Set, if the level policy rejects the operation's fixed severity
the operation returns its receiver and trace unchanged — no engine call, no
field conversion output, no sink record, no exit-callback invocation. -/
theorem suppressed_call_is_noop :
    ∀ (z : Zap) (w : ZapLogger) (msg : String) (f : Fields) (tr : List Event),
      (z.shouldLog DebugLevel = false → z.Debug msg f tr = (z, tr))
      ∧ (z.shouldLog InfoLevel = false → z.Info msg f tr = (z, tr))
      ∧ (z.shouldLog WarnLevel = false → z.Warn msg f tr = (z, tr))
      ∧ (z.shouldLog ErrorLevel = false → z.Error msg f tr = (z, tr))
      ∧ (z.shouldLog FatalLevel = false → z.Fatal msg f tr = (z, tr))
      ∧ (w.shouldLog DebugLevel = false → w.Debug msg f tr = (w, tr))
      ∧ (w.shouldLog InfoLevel = false → w.Info msg f tr = (w, tr))
      ∧ (w.shouldLog WarnLevel = false → w.Warn msg f tr = (w, tr))
      ∧ (w.shouldLog ErrorLevel = false → w.Error msg f tr = (w, tr))
      ∧ (w.shouldLog FatalLevel = false → w.Fatal msg f tr = (w, tr)) := by
  intro z w msg f tr
  refine ⟨?_, ?_, ?_, ?_, ?_, ?_, ?_, ?_, ?_, ?_⟩ <;> intro h <;>
    simp [Zap.Debug, Zap.Info, Zap.Warn, Zap.Error, Zap.Fatal,
      ZapLogger.Debug, ZapLogger.Info, ZapLogger.Warn, ZapLogger.Error,
      ZapLogger.Fatal, h]

/-- Witness for C5: a logger configured at Info suppresses Debug (with
fields attached), and one whose configured minimum is above Fatal turns
even `Fatal` into a no-op, leaving the trace empty. -/
theorem suppressed_call_is_noop_witness :
    ((NewZap (Config.mk InfoLevel 0 ExitFunc.noop [])).shouldLog DebugLevel = false
      ∧ (NewZapLogger InfoLevel).shouldLog DebugLevel = false)
    ∧ (NewZap (Config.mk InfoLevel 0 ExitFunc.noop [])).Debug "dbg"
        [("k", Value.str "v")] []
        = (NewZap (Config.mk InfoLevel 0 ExitFunc.noop []), [])
    ∧ (NewZapLogger InfoLevel).Debug "dbg" [("k", Value.str "v")] []
        = (NewZapLogger InfoLevel, []) := by
  refine ⟨⟨by decide, by decide⟩, ?_, ?_⟩
  · exact (suppressed_call_is_noop (NewZap (Config.mk InfoLevel 0 ExitFunc.noop []))
      (NewZapLogger InfoLevel) "dbg" [("k", Value.str "v")] []).1 (by decide)
  · exact (suppressed_call_is_noop (NewZap (Config.mk InfoLevel 0 ExitFunc.noop []))
      (NewZapLogger InfoLevel) "dbg" [("k", Value.str "v")] []).2.2.2.2.2.1 (by decide)

/-- C6 counterexample: with the configuration's level field left at its
zero value (0), the constructed logger's gate admits Debug — a Debug call
emits a record — contradicting the claim that the effective minimum is Info
and Debug calls are suppressed.  (The zero value of the enumeration is
DebugLevel, so construction's `default:` → Info branch is never reached.) -/
theorem zero_level_counterexample :
    (NewZap (Config.mk 0 0 ExitFunc.nilFn [])).shouldLog DebugLevel = true
    ∧ ((NewZap (Config.mk 0 0 ExitFunc.nilFn [])).Debug "m" [] []).2
        = [Event.emit DebugLevel "m" []]
    ∧ (NewZap (Config.mk 0 0 ExitFunc.nilFn [])).logger.level = DebugLevel := by
  refine ⟨by decide, by decide, by decide⟩

/-- C6 amended: when no minimum severity is supplied (the configuration's
level field is left at its zero value), the effective configured minimum is
Debug — the zero value of the level enumeration — so all five operations
pass the gate (none is suppressed), and the engine's level is likewise set
to Debug; only level values outside the five recognized ones are coerced to
Info in the engine. -/
theorem zero_level_means_debug :
    ∀ config : Config, config.Level = 0 →
      ((NewZap config).shouldLog DebugLevel = true
        ∧ (NewZap config).shouldLog InfoLevel = true
        ∧ (NewZap config).shouldLog WarnLevel = true
        ∧ (NewZap config).shouldLog ErrorLevel = true
        ∧ (NewZap config).shouldLog FatalLevel = true)
      ∧ (NewZap config).logger.level = DebugLevel := by
  intro config h
  constructor
  · refine ⟨?_, ?_, ?_, ?_, ?_⟩ <;>
      simp [Zap.shouldLog, NewZap_Config_Level, h, DebugLevel, InfoLevel,
        WarnLevel, ErrorLevel, FatalLevel]
  · rw [NewZap_logger]
    simp [zapEngineLevel, h, DebugLevel]

/-- Witness for the amended C6 at the zero-value configuration. -/
theorem zero_level_means_debug_witness :
    (Config.mk 0 0 ExitFunc.nilFn []).Level = 0
    ∧ (NewZap (Config.mk 0 0 ExitFunc.nilFn [])).shouldLog DebugLevel = true
    ∧ (NewZap (Config.mk 0 0 ExitFunc.nilFn [])).logger.level = DebugLevel := by
  refine ⟨rfl, ?_, ?_⟩
  · exact ((zero_level_means_debug (Config.mk 0 0 ExitFunc.nilFn []) rfl).1).1
  · exact (zero_level_means_debug (Config.mk 0 0 ExitFunc.nilFn []) rfl).2

/-- C7: the severity-to-label conversion returns "debug", "info", "warn",
"error", "fatal" on the five recognized levels, and the empty string — not
an error — on every other value; the policy comparison is likewise defined
(total) on every such value. -/
theorem getLogLevel_labels :
    (LogLevel.GetLogLevel DebugLevel = "debug"
      ∧ LogLevel.GetLogLevel InfoLevel = "info"
      ∧ LogLevel.GetLogLevel WarnLevel = "warn"
      ∧ LogLevel.GetLogLevel ErrorLevel = "error"
      ∧ LogLevel.GetLogLevel FatalLevel = "fatal")
    ∧ (∀ l : LogLevel, (l < 0 ∨ 4 < l) → LogLevel.GetLogLevel l = ""
        ∧ ∀ z : ZapLogger, z.shouldLog l = decide (z.LogLevel ≤ l)) := by
  constructor
  · refine ⟨rfl, rfl, rfl, rfl, rfl⟩
  · intro l h
    refine ⟨?_, fun z => rfl⟩
    simp only [LogLevel.GetLogLevel, DebugLevel, InfoLevel, WarnLevel,
      ErrorLevel, FatalLevel]
    rcases h with h | h <;>
      rw [if_neg (show ¬(l = 0) from fun hh => by
            rw [hh] at h; exact absurd h (by decide)),
        if_neg (show ¬(l = 1) from fun hh => by
            rw [hh] at h; exact absurd h (by decide)),
        if_neg (show ¬(l = 2) from fun hh => by
            rw [hh] at h; exact absurd h (by decide)),
        if_neg (show ¬(l = 3) from fun hh => by
            rw [hh] at h; exact absurd h (by decide)),
        if_neg (show ¬(l = 4) from fun hh => by
            rw [hh] at h; exact absurd h (by decide))]

/-- Witness for C7 at the unrecognized severity 999: the label is the empty
string. -/
theorem getLogLevel_labels_witness :
    ((999 : LogLevel) < 0 ∨ 4 < (999 : LogLevel))
    ∧ LogLevel.GetLogLevel 999 = "" := by
  refine ⟨Or.inr (by decide), ?_⟩
  exact (getLogLevel_labels.2 999 (Or.inr (by decide))).1

/-- C8 counterexample: `NewZapLogger` — a construction path that yields a
usable logger instance — installs the no-op `func(int) {}` as its exit
callback, not the real process-termination primitive, when no callback is
supplied (it accepts none at all). -/
theorem zapLogger_default_exit_counterexample :
    (NewZapLogger InfoLevel).exitFunc = ExitFunc.noop
    ∧ (NewZapLogger InfoLevel).exitFunc ≠ ExitFunc.osExit := by
  exact ⟨rfl, by decide⟩

/-- C8 amended: when no exit callback is supplied, `NewZap` defaults the
exit callback to the real process-termination primitive `os.Exit` (invoked
with status 1 on Fatal), but `NewZapLogger` — the other construction path —
always installs a no-op callback. -/
theorem default_exit_callback_paths :
    (∀ config : Config, config.ExitFunc = ExitFunc.nilFn →
      (NewZap config).Config.ExitFunc = ExitFunc.osExit)
    ∧ (∀ level : Level, (NewZapLogger level).exitFunc = ExitFunc.noop) := by
  constructor
  · intro config hc
    rw [NewZap_ExitFunc, if_pos hc]
  · intro level
    rfl

/-- Witness for the amended C8: a nil exit callback at `NewZap` becomes
`os.Exit`. -/
theorem default_exit_callback_paths_witness :
    (Config.mk InfoLevel 0 ExitFunc.nilFn []).ExitFunc = ExitFunc.nilFn
    ∧ (NewZap (Config.mk InfoLevel 0 ExitFunc.nilFn [])).Config.ExitFunc
        = ExitFunc.osExit := by
  refine ⟨rfl, ?_⟩
  exact default_exit_callback_paths.1 (Config.mk InfoLevel 0 ExitFunc.nilFn []) rfl

/-- C9: for every configuration whose level is strictly greater than
FatalLevel, every one of the five logging operations of the constructed
logger is a complete no-op — the trace is unchanged, so nothing reaches the
sink and Fatal never invokes the exit callback — even though construction
coerces the unrecognized level to Info in the underlying engine, leaving
the wrapper gate (which rejects everything) divergent from the engine gate
(which would accept Info and above). -/
theorem out_of_range_config_noop :
    ∀ (config : Config) (msg : String) (f : Fields) (tr : List Event),
      FatalLevel < config.Level →
      (NewZap config).Debug msg f tr = (NewZap config, tr)
      ∧ (NewZap config).Info msg f tr = (NewZap config, tr)
      ∧ (NewZap config).Warn msg f tr = (NewZap config, tr)
      ∧ (NewZap config).Error msg f tr = (NewZap config, tr)
      ∧ (NewZap config).Fatal msg f tr = (NewZap config, tr)
      ∧ (NewZap config).logger.level = InfoLevel := by
  intro config msg f tr h
  have gate : ∀ l : Level, l ≤ FatalLevel → (NewZap config).shouldLog l = false := by
    intro l hl
    simp only [Zap.shouldLog, NewZap_Config_Level, decide_eq_false_iff_not]
    exact fun hle => absurd h (not_lt.mpr (hle.trans hl))
  refine ⟨?_, ?_, ?_, ?_, ?_, ?_⟩
  · simp [Zap.Debug, gate DebugLevel (by decide)]
  · simp [Zap.Info, gate InfoLevel (by decide)]
  · simp [Zap.Warn, gate WarnLevel (by decide)]
  · simp [Zap.Error, gate ErrorLevel (by decide)]
  · simp [Zap.Fatal, gate FatalLevel (by decide)]
  · rw [NewZap_logger]
    simp only [zapEngineLevel]
    rw [if_neg (show ¬(config.Level = DebugLevel) from fun hh => by
          rw [hh] at h; exact absurd h (by decide)),
      if_neg (show ¬(config.Level = InfoLevel) from fun hh => by
          rw [hh] at h; exact absurd h (by decide)),
      if_neg (show ¬(config.Level = WarnLevel) from fun hh => by
          rw [hh] at h; exact absurd h (by decide)),
      if_neg (show ¬(config.Level = ErrorLevel) from fun hh => by
          rw [hh] at h; exact absurd h (by decide)),
      if_neg (show ¬(config.Level = FatalLevel) from fun hh => by
          rw [hh] at h; exact absurd h (by decide))]

/-- Witness for C9 at `Level(999)`: Fatal leaves the trace empty (no
emission, no exit-callback invocation) while the engine level was coerced
to Info. -/
theorem out_of_range_config_noop_witness :
    FatalLevel < (Config.mk 999 0 ExitFunc.nilFn []).Level
    ∧ (NewZap (Config.mk 999 0 ExitFunc.nilFn [])).Fatal "bye" [] []
        = (NewZap (Config.mk 999 0 ExitFunc.nilFn []), [])
    ∧ (NewZap (Config.mk 999 0 ExitFunc.nilFn [])).Debug "m" [] []
        = (NewZap (Config.mk 999 0 ExitFunc.nilFn []), [])
    ∧ (NewZap (Config.mk 999 0 ExitFunc.nilFn [])).logger.level = InfoLevel := by
  refine ⟨by decide, ?_, ?_, ?_⟩
  · exact (out_of_range_config_noop (Config.mk 999 0 ExitFunc.nilFn [])
      "bye" [] [] (by decide)).2.2.2.2.1
  · exact (out_of_range_config_noop (Config.mk 999 0 ExitFunc.nilFn [])
      "m" [] [] (by decide)).1
  · exact (out_of_range_config_noop (Config.mk 999 0 ExitFunc.nilFn [])
      "m" [] [] (by decide)).2.2.2.2.2

theorem runCall_fst (z : Zap) (c : Call) (tr : List Event) :
    (runCall z c tr).1 = z := by
  cases c <;>
    simp only [runCall, Zap.Debug, Zap.Info, Zap.Warn, Zap.Error, Zap.Fatal] <;>
    split <;> rfl

theorem runCalls_fst (z : Zap) (cs : List Call) (tr : List Event) :
    (runCalls z cs tr).1 = z := by
  induction cs generalizing z tr with
  | nil => rfl
  | cons c rest ih =>
    simp only [runCalls]
    rw [ih, runCall_fst]

/-- C10: after every sequence of logging calls, the logger is exactly the
one built at construction — in particular its stored minimum level, output
sink handle and exit callback equal their construction-time values; no
logging operation mutates the configuration. -/
theorem config_never_mutated :
    ∀ (z : Zap) (cs : List Call) (tr : List Event),
      (runCalls z cs tr).1 = z
      ∧ (runCalls z cs tr).1.Config.Level = z.Config.Level
      ∧ (runCalls z cs tr).1.Config.Output = z.Config.Output
      ∧ (runCalls z cs tr).1.Config.ExitFunc = z.Config.ExitFunc := by
  intro z cs tr
  have h := runCalls_fst z cs tr
  exact ⟨h, by rw [h], by rw [h], by rw [h]⟩

end Logger
